import Mathlib

/-!
Verification of the remote-object primitives of this repository:
the remotely callable function handle (src/remop/src/rfn/rfn_const.rs)
and the lazily transferred blob handle (src/remop/src/rsync/lazy_blob/mod.rs),
together with their keep-alive providers.

The async code is embedded shallowly:
* each dispatcher task's loop becomes a recursive function over the list of
  its wakeups (each wakeup records which conditions were ready);
* the blob fetch cache, whose tokio Mutex is held for the whole duration of a
  fetch attempt, becomes a sequential trace of critical sections on the shared
  cell: the order of the trace is the order in which callers acquire the lock,
  which is the only order that exists at runtime;
* caller-side cancellation (a caller future dropped at an await point) is an
  explicit parameter of each critical section.
-/

/- ----------------------------------------------------------------
   Basic wire and error types
   ---------------------------------------------------------------- -/

/-- Byte buffers (bytes::Bytes / chmux::DataBuf) are modelled as lists of
naturals; only cloning and byte-for-byte equality matter here. -/
def Buffer : Type := List Nat

instance : DecidableEq Buffer := by
  unfold Buffer
  infer_instance

/-- Modelled from the spec: chmux transport receive failure (the chmux
transport is out of scope of the repository sources, spec section 6). -/
inductive ChmuxRecvError where
  | recvFailed
deriving DecidableEq

/-- Modelled from the spec: chmux connect failure. -/
inductive ChmuxConnectError where
  | connectFailed
deriving DecidableEq

/-- Modelled from the spec: chmux listener failure. -/
inductive ChmuxListenerError where
  | listenFailed
deriving DecidableEq

/-- ConnectError from src/remop/src/sync/mod.rs lines 14-21: error connecting
a remote channel. -/
inductive ConnectError where
  | dropped
  | connect (e : ChmuxConnectError)
  | listen (e : ChmuxListenerError)
deriving DecidableEq

/-- UsizeExceeded from src/remop/src/rsync/lazy_blob/mod.rs lines 19-20:
the size of the binary data (a u64, here a Nat) exceeds usize::MAX on this
platform. The platform bound usize::MAX is a parameter `uMax` throughout. -/
structure UsizeExceeded where
  val : Nat
deriving DecidableEq

/-- FetchError from src/remop/src/rsync/lazy_blob/mod.rs lines 31-41. -/
inductive FetchError where
  | dropped
  | size (e : UsizeExceeded)
  | remoteReceive (e : ChmuxRecvError)
  | remoteConnect (e : ConnectError)
deriving DecidableEq

/- ----------------------------------------------------------------
   Keep-alive signal and dispatcher loops
   ---------------------------------------------------------------- -/

/-- State of the keep-alive oneshot channel as observed by a dispatcher:
`pending` means the provider is still held (keep_tx alive, nothing sent);
`kept` means keep() sent () (rfn_const.rs line 27, lazy_blob line 78);
`dropped` means the provider was dropped without keep(), closing the
channel without a value. -/
inductive KeepSig where
  | pending
  | kept
  | dropped
deriving DecidableEq

/-- Result of polling mpsc::Receiver::recv on the capacity-1 request
channel, as matched by the dispatchers: Ok(Some item), Ok(None) when every
handle clone (sender) has been dropped, or Err(_) for a transmission error
that the dispatchers skip. -/
inductive RecvRes (α : Type) where
  | item (a : α)
  | closed
  | recvErr
deriving DecidableEq

/-- The remote function dispatcher loop, rfn_const.rs lines 94-123.
Each list element is one loop iteration's wakeup: the keep signal state and
the request-channel poll result at that moment.  The tokio select is
`biased` with the termination branch written first, so the keep signal is
checked before the request channel on every iteration.  `term` resolves
exactly when keep_rx yields Err (provider dropped without keep); after an
Ok(()) it awaits pending() forever.  Returns the accepted call arguments
(each spawned into its own task, line 112) and whether the loop exited. -/
def rfnLoop {A : Type} : List (KeepSig × RecvRes A) → List A × Bool
  | [] => ([], false)
  | (KeepSig.dropped, _) :: _ => ([], true)
  | (_, RecvRes.item a) :: rest =>
      let p := rfnLoop rest
      (a :: p.1, p.2)
  | (_, RecvRes.closed) :: _ => ([], true)
  | (_, RecvRes.recvErr) :: rest => rfnLoop rest

/-- Which branch an unbiased tokio select polls first on a given wakeup.
Without `biased`, tokio polls the branches in random order. -/
inductive SelPoll where
  | keepFirst
  | sendFirst
deriving DecidableEq

/-- The request items a single poll of the blob dispatcher's receive loop
accepts before suspending again. -/
def itemsOf {α : Type} : RecvRes α → List α
  | RecvRes.item a => [a]
  | _ => []

/-- The blob provider dispatcher, lazy_blob/mod.rs lines 136-158.  It races
the whole receive loop `do_send` against `Err(_) = keep_rx` in an UNBIASED
tokio select, so each wakeup polls the two branches in an order chosen by
`SelPoll`.  Polling `do_send` first on a wakeup where a request is ready
accepts that request (spawning a transfer task, lines 145-150) before the
keep branch is polled; if the keep branch is then ready (provider dropped
without keep) the select completes and the task exits.  The `Err(_)`
pattern means a `kept` signal disables the keep branch, leaving only the
receive loop. -/
def blobLoop {α : Type} : List (SelPoll × KeepSig × RecvRes α) → List α × Bool
  | [] => ([], false)
  | (SelPoll.keepFirst, KeepSig.dropped, _) :: _ => ([], true)
  | (SelPoll.sendFirst, KeepSig.dropped, rv) :: _ => (itemsOf rv, true)
  | (_, _, RecvRes.item a) :: rest =>
      let p := blobLoop rest
      (a :: p.1, p.2)
  | (_, _, RecvRes.closed) :: _ => ([], true)
  | (_, _, RecvRes.recvErr) :: rest => blobLoop rest

/- ----------------------------------------------------------------
   try_call and the keep()/new() constructors
   ---------------------------------------------------------------- -/

/-- Modelled from the spec: the CallError type of the rfn module and the
oneshot receive-error conversion are not among the sources; the spec
(sections 4.2, 7) describes a single delivery/availability error raised
when the reply channel closes before producing a value. -/
inductive CallError where
  | dropped
deriving DecidableEq

/-- RFn::try_call, rfn_const.rs lines 129-135: the result of sending the
request is discarded (`let _ = self.request_tx.send(..)`), then the caller
awaits the oneshot reply channel; a missing reply becomes the CallError via
`?`.  `_sendRes` is the discarded send result; `reply` is what the reply
channel produced (none when it closed without a value). -/
def tryCallM {R : Type} (_sendRes : Option Unit) (reply : Option R) : Except CallError R :=
  match reply with
  | some v => Except.ok v
  | none => Except.error CallError.dropped

/-- The possible fates of one call request, determining what the reply
channel yields: the dispatcher already exited so the request was never
received and its result_tx was dropped; the provider was dropped (which
shuts the dispatcher down) before the request was accepted; the spawned
execution task was dropped before sending; or the task completed with a
value (rfn_const.rs lines 112-115). -/
inductive CallFate (R : Type) where
  | dispatcherShutdown
  | providerDropped
  | taskAbandoned
  | completed (v : R)

/-- What the reply oneshot channel yields for each call fate: only a
completed execution task sends a value; in every other fate the result_tx
is dropped unused and the channel closes without a value. -/
def replyOf {R : Type} : CallFate R → Option R
  | CallFate.completed v => some v
  | _ => none

/-- Reply produced for a call, as a function of whether the dispatcher
accepted the request (spawning the execution task) and whether that task
ran to completion: an exited dispatcher never accepts, and an accepted
task delivers f a iff it completes. -/
def callOutcome {A R : Type} (accepted taskCompletes : Bool) (f : A → R) (a : A) : Option R :=
  if accepted && taskCompletes then some (f a) else none

/-- The keep signal at the moment provided() returns: the provider is held
by the caller, undecided. -/
def providedKeepSig : KeepSig := KeepSig.pending

/-- Effect of Provider::keep / RFnProvider::keep on the keep signal:
it consumes the provider and sends (), whatever the previous state. -/
def keepSigAfter (_ : KeepSig) : KeepSig := KeepSig.kept

/-- The keep signal under which a handle made by RFn::new (rfn_const.rs
lines 74-82) or LazyBlob::new (lazy_blob/mod.rs lines 123-127) runs: both
constructors call provided() and immediately keep() on the returned
provider. -/
def newKeepSig : KeepSig := keepSigAfter providedKeepSig

/- ----------------------------------------------------------------
   LazyBlob: handle fields, length check, serialization
   ---------------------------------------------------------------- -/

deriving instance DecidableEq for Except

/-- The three logical states of the shared fetch cache cell
(the Arc<Mutex<Option<Pin<Box<MaybeDone<..>>>>>> of lazy_blob/mod.rs line
106): `noTask` is None; `pendingTask` is Some(MaybeDone::Future _), a
created but not yet completed fetch computation; `doneTask r` is
Some(MaybeDone::Done r), the memoized resolution. -/
inductive FetchCell where
  | noTask
  | pendingTask
  | doneTask (r : Except FetchError Buffer)
deriving DecidableEq

/-- The LazyBlob handle, lazy_blob/mod.rs lines 100-107: a request-channel
sender (represented by its channel identity), the declared length (a u64,
here Nat), and the shared fetch cache cell.  The cell field carries
`#[serde(skip)] #[serde(default)]`. -/
structure LazyBlobM where
  req_tx : Nat
  len : Nat
  fetch_task : FetchCell
deriving DecidableEq

/-- The wire form of a LazyBlob: serde serializes only req_tx and len,
because fetch_task is `#[serde(skip)]`. -/
structure LazyBlobWire where
  req_tx : Nat
  len : Nat
deriving DecidableEq

/-- Serialization of a LazyBlob (derived Serialize with the skip
attribute): only the request channel sender and the length cross the
wire. -/
def serializeLazyBlob (b : LazyBlobM) : LazyBlobWire :=
  { req_tx := b.req_tx, len := b.len }

/-- Deserialization of a LazyBlob (derived Deserialize): the skipped
fetch_task field is filled with Default::default(), a fresh Arc around an
empty cell. -/
def deserializeLazyBlob (w : LazyBlobWire) : LazyBlobM :=
  { req_tx := w.req_tx, len := w.len, fetch_task := FetchCell.noTask }

/-- The derived Clone of LazyBlob (line 97): the sender is cloned onto the
same channel, len copied, and the Arc cloned so that the cell is shared;
no field value observably changes. -/
def cloneLazyBlob (b : LazyBlobM) : LazyBlobM := b

/-- usize::try_from on a u64 value: succeeds exactly when the value fits
the platform bound uMax (= usize::MAX). -/
def usizeTryFrom (uMax v : Nat) : Option Nat :=
  if v ≤ uMax then some v else none

/-- LazyBlob::len, lazy_blob/mod.rs lines 173-175:
`usize::try_from(self.len).map_err(|_| UsizeExceeded(self.len))`.
A pure function of the stored length; it touches neither the request
channel nor the cache cell. -/
def lenRes (uMax l : Nat) : Except UsizeExceeded Nat :=
  match usizeTryFrom uMax l with
  | some n => Except.ok n
  | none => Except.error { val := l }

/- ----------------------------------------------------------------
   LazyBlob: the single-flight fetch
   ---------------------------------------------------------------- -/

/-- Fate of the one fetch computation's interaction with the provider,
fixed per construction (the computation runs at most once).  Mirrors the
awaits of the computation body, lazy_blob/mod.rs lines 184-191:
`served` - the provider connected and sent the data;
`senderDropped` - fw_rx.into_inner() returned None (the forwarded sender
placeholder was dropped unconnected, e.g. the dispatcher exited);
`connectFailed` - connecting the forwarded channel failed;
`recvFailed` - the live stream reported a receive error;
`recvNone` - the stream closed without delivering data. -/
inductive FetchEnv where
  | served
  | senderDropped
  | connectFailed (e : ConnectError)
  | recvFailed (e : ChmuxRecvError)
  | recvNone
deriving DecidableEq

/-- Resolution of the fetch computation, following lines 185-190: a served
request yields the provider's buffer (the provider sends data.clone() of
the construction buffer, line 145-149); the failure cases map to the
FetchError variants exactly as the source's ok_or/map_err chain does. -/
def fetchOutcome (env : FetchEnv) (data : Buffer) : Except FetchError Buffer :=
  match env with
  | FetchEnv.served => Except.ok data
  | FetchEnv.senderDropped => Except.error FetchError.dropped
  | FetchEnv.connectFailed e => Except.error (FetchError.remoteConnect e)
  | FetchEnv.recvFailed e => Except.error (FetchError.remoteReceive e)
  | FetchEnv.recvNone => Except.error FetchError.dropped

/-- Construction parameters of one LazyBlob::provided call: the immutable
buffer owned by the provider and the declared length field of the handle.
provided() (line 134) sets len = data.len(). -/
structure BlobParams where
  data : Buffer
  len : Nat
deriving DecidableEq

/-- LazyBlob::provided fixes the handle's length to the buffer's length
(lazy_blob/mod.rs line 134, `let len = data.len() as _`). -/
def providedBlob (data : Buffer) : BlobParams :=
  { data := data, len := data.length }

/-- The state shared by all clones of one construction: the cache cell and
a ghost counter of how many fetch computations have ever been created
(i.e. how many times `*fetch_task = Some(..)` at line 183 ran). -/
structure BlobState where
  cell : FetchCell
  created : Nat
deriving DecidableEq

/-- Initial shared state: Default::default() at line 160 - an empty cell,
no computation ever created. -/
def initBlobState : BlobState := { cell := FetchCell.noTask, created := 0 }

/-- Where, if anywhere, the calling future is dropped during this fetch
attempt: `no` - it runs to the end of the critical section; `beforeLock` -
dropped while awaiting the mutex, before entering; `duringAwait` - dropped
at an await point inside the critical section (awaiting the stored
MaybeDone), releasing the lock with the computation unfinished. -/
inductive FetchCancel where
  | no
  | beforeLock
  | duringAwait
deriving DecidableEq

/-- One critical section of LazyBlob::fetch, lazy_blob/mod.rs lines
177-199, on the shared cell.  The tokio Mutex is held from line 178 to the
end, so fetch attempts are serialized; this function is one attempt.
If the cell is None: `self.len()?` returns the size error with the cell
untouched; otherwise the computation is created and stored (created + 1)
and then awaited - to completion unless the caller is cancelled at that
await.  If the cell already holds a computation, awaiting it drives it to
its resolution (or resolves immediately if already done); the same
`fetchOutcome env` resolves it, since there is only ever one computation
per construction and `env` is its fixed fate.  fetch returns Ok(()) after
the await; the resolved value (possibly an error) stays in the cell. -/
def fetchStep (uMax : Nat) (p : BlobParams) (env : FetchEnv) (c : FetchCancel) (s : BlobState) :
    BlobState × Option (Except FetchError Unit) :=
  match c with
  | FetchCancel.beforeLock => (s, none)
  | _ =>
    match s.cell with
    | FetchCell.noTask =>
        match lenRes uMax p.len with
        | Except.error e => (s, some (Except.error (FetchError.size e)))
        | Except.ok _ =>
            match c with
            | FetchCancel.duringAwait =>
                ({ cell := FetchCell.pendingTask, created := s.created + 1 }, none)
            | _ =>
                ({ cell := FetchCell.doneTask (fetchOutcome env p.data),
                   created := s.created + 1 }, some (Except.ok ()))
    | FetchCell.pendingTask =>
        match c with
        | FetchCancel.duringAwait => (s, none)
        | _ =>
            ({ s with cell := FetchCell.doneTask (fetchOutcome env p.data) },
             some (Except.ok ()))
    | FetchCell.doneTask _ =>
        match c with
        | FetchCancel.duringAwait => (s, none)
        | _ => (s, some (Except.ok ()))

/-- LazyBlob::get, lines 205-210: run fetch, propagate its (size) error,
then re-acquire the lock and clone the resolved output.  Between fetch's
unlock and the re-lock the cell is already `doneTask` and no operation
ever changes a doneTask cell, so reading the post-fetch cell is exact.
The final `_ => none` branches are the source's output_mut().unwrap(),
proved unreachable below. -/
def getStep (uMax : Nat) (p : BlobParams) (env : FetchEnv) (c : FetchCancel) (s : BlobState) :
    BlobState × Option (Except FetchError Buffer) :=
  match fetchStep uMax p env c s with
  | (s', none) => (s', none)
  | (s', some (Except.error e)) => (s', some (Except.error e))
  | (s', some (Except.ok _)) =>
      match s'.cell with
      | FetchCell.doneTask r => (s', some r)
      | _ => (s', none)

/-- Result of LazyBlob::into_inner, lines 216-229: run fetch, propagate
its error; then if this handle holds the sole reference to the cell
(Arc::try_unwrap succeeds), take the output out of the cell directly;
otherwise put the Arc back and fall through to get() (whose fetch finds
the already-resolved cell). -/
def intoInnerRes (uMax : Nat) (p : BlobParams) (env : FetchEnv) (c : FetchCancel)
    (sole : Bool) (s : BlobState) : Option (Except FetchError Buffer) :=
  match fetchStep uMax p env c s with
  | (_, none) => none
  | (_, some (Except.error e)) => some (Except.error e)
  | (s', some (Except.ok _)) =>
      if sole then
        match s'.cell with
        | FetchCell.doneTask r => some r
        | _ => none
      else
        (getStep uMax p env FetchCancel.no s').2

/-- One caller operation on the shared cell: a get() call or an
into_inner() call (whose consumed handle may or may not be the sole
remaining reference), each with its cancellation behaviour. -/
inductive BlobOp where
  | getCall (c : FetchCancel)
  | intoInnerCall (c : FetchCancel) (sole : Bool)
deriving DecidableEq

/-- Effect of one caller operation on the shared state, with the result
that caller observes (none when cancelled). -/
def blobStep (uMax : Nat) (p : BlobParams) (env : FetchEnv) :
    BlobOp → BlobState → BlobState × Option (Except FetchError Buffer)
  | BlobOp.getCall c, s => getStep uMax p env c s
  | BlobOp.intoInnerCall c sole, s =>
      ((fetchStep uMax p env c s).1, intoInnerRes uMax p env c sole s)

/-- A serialized trace of caller operations on one construction's shared
cell (the order of lock acquisitions), returning the final shared state
and each caller's observed result. -/
def blobRun (uMax : Nat) (p : BlobParams) (env : FetchEnv) :
    List BlobOp → BlobState → BlobState × List (Option (Except FetchError Buffer))
  | [], s => (s, [])
  | op :: ops, s =>
      let q := blobStep uMax p env op s
      let w := blobRun uMax p env ops q.1
      (w.1, q.2 :: w.2)

/-- The cancellation behaviour of an operation's underlying fetch. -/
def cancelOf : BlobOp → FetchCancel
  | BlobOp.getCall c => c
  | BlobOp.intoInnerCall c _ => c

/-- Where the keep_rx receiver lives: while the dispatcher task runs (and
keep() has not been called), the receiver is owned by the task's future -
inside `term` for the remote function dispatcher (rfn_const.rs lines
95-100) and inside the select for the blob dispatcher (lazy_blob line
156); it is dropped exactly when the task's future is dropped, i.e. when
the task exits. -/
inductive RxState where
  | heldByTask
  | droppedRx
deriving DecidableEq

/-- Location of keep_rx as a function of whether the dispatcher task has
exited (keep() not called, so the receiver was not consumed early). -/
def rxAfter (exited : Bool) : RxState :=
  if exited then RxState.droppedRx else RxState.heldByTask

/-- tokio oneshot Sender::closed() - what done() awaits (rfn_const.rs line
34, lazy_blob line 86) - resolves exactly once the receiver has been
dropped. -/
def closedResolves : RxState → Bool
  | RxState.droppedRx => true
  | RxState.heldByTask => false

/-- Whether RFnProvider::done has resolved after the dispatcher processed
the given wakeup trace. -/
def doneResolvedRfn {A : Type} (t : List (KeepSig × RecvRes A)) : Bool :=
  closedResolves (rxAfter (rfnLoop t).2)

/-- Whether the blob Provider::done has resolved after the dispatcher
processed the given wakeup trace. -/
def doneResolvedBlob {α : Type} (t : List (SelPoll × KeepSig × RecvRes α)) : Bool :=
  closedResolves (rxAfter (blobLoop t).2)

/- ----------------------------------------------------------------
   Invariants of the fetch cache
   ---------------------------------------------------------------- -/

/-- Rank of a cell state along the empty -> in-flight -> resolved order. -/
def cellRank : FetchCell → Nat
  | FetchCell.noTask => 0
  | FetchCell.pendingTask => 1
  | FetchCell.doneTask _ => 2

/-- Invariant of the shared state of one construction: the creation
counter is 0 exactly while the cell is empty and 1 as soon as any
computation exists, and a resolved cell holds the resolution of the one
computation. -/
def BlobInv (env : FetchEnv) (d : Buffer) (s : BlobState) : Prop :=
  (s.cell = FetchCell.noTask → s.created = 0)
  ∧ (s.cell ≠ FetchCell.noTask → s.created = 1)
  ∧ ∀ r, s.cell = FetchCell.doneTask r → r = fetchOutcome env d

theorem blobInv_init (env : FetchEnv) (d : Buffer) : BlobInv env d initBlobState := by
  refine ⟨fun _ => rfl, fun h => absurd rfl h, fun r h => ?_⟩
  simp [initBlobState] at h

theorem blobInv_created_le (env : FetchEnv) (d : Buffer) (s : BlobState)
    (h : BlobInv env d s) : s.created ≤ 1 := by
  by_cases hc : s.cell = FetchCell.noTask
  · simp [h.1 hc]
  · simp [h.2.1 hc]

theorem fetchOutcome_ok (env : FetchEnv) (d b : Buffer)
    (h : fetchOutcome env d = Except.ok b) : b = d := by
  cases env <;> simp [fetchOutcome] at h
  exact h.symm

theorem fetchStep_inv (uMax : Nat) (p : BlobParams) (env : FetchEnv) (c : FetchCancel)
    (s : BlobState) (h : BlobInv env p.data s) :
    BlobInv env p.data (fetchStep uMax p env c s).1 := by
  obtain ⟨cell, created⟩ := s
  obtain ⟨h0, h1, h2⟩ := h
  simp only [BlobInv] at *
  cases c <;> cases cell <;>
    rcases hl : lenRes uMax p.len with _ | _ <;>
    simp_all [fetchStep]

theorem fetchStep_rank_mono (uMax : Nat) (p : BlobParams) (env : FetchEnv) (c : FetchCancel)
    (s : BlobState) : cellRank s.cell ≤ cellRank (fetchStep uMax p env c s).1.cell := by
  obtain ⟨cell, created⟩ := s
  cases c <;> cases cell <;>
    rcases hl : lenRes uMax p.len with _ | _ <;>
    simp_all [fetchStep, cellRank]

theorem fetchStep_done_stable (uMax : Nat) (p : BlobParams) (env : FetchEnv) (c : FetchCancel)
    (s : BlobState) (r : Except FetchError Buffer) (h : s.cell = FetchCell.doneTask r) :
    (fetchStep uMax p env c s).1.cell = FetchCell.doneTask r := by
  obtain ⟨cell, created⟩ := s
  simp only at h
  subst h
  cases c <;> simp [fetchStep]

theorem fetchStep_ok_done (uMax : Nat) (p : BlobParams) (env : FetchEnv) (c : FetchCancel)
    (s : BlobState) (u : Unit) (h : (fetchStep uMax p env c s).2 = some (Except.ok u)) :
    ∃ r, (fetchStep uMax p env c s).1.cell = FetchCell.doneTask r := by
  obtain ⟨cell, created⟩ := s
  cases c <;> cases cell <;>
    rcases hl : lenRes uMax p.len with _ | _ <;>
    simp_all [fetchStep]

theorem getStep_fst (uMax : Nat) (p : BlobParams) (env : FetchEnv) (c : FetchCancel)
    (s : BlobState) : (getStep uMax p env c s).1 = (fetchStep uMax p env c s).1 := by
  rcases hf : fetchStep uMax p env c s with ⟨s', r⟩
  rcases r with _ | r
  · simp [getStep, hf]
  · rcases r with e | u
    · simp [getStep, hf]
    · rcases hc : s'.cell with _ | _ | r' <;> simp [getStep, hf, hc]

theorem intoInner_eq_get (uMax : Nat) (p : BlobParams) (env : FetchEnv) (c : FetchCancel)
    (sole : Bool) (s : BlobState) :
    intoInnerRes uMax p env c sole s = (getStep uMax p env c s).2 := by
  rcases hf : fetchStep uMax p env c s with ⟨s', r⟩
  rcases r with _ | r
  · simp [intoInnerRes, getStep, hf]
  · rcases r with e | u
    · simp [intoInnerRes, getStep, hf]
    · obtain ⟨r', hr'⟩ := fetchStep_ok_done uMax p env c s u (by rw [hf])
      rw [hf] at hr'
      simp only at hr'
      cases sole
      · have hinner : fetchStep uMax p env FetchCancel.no s' = (s', some (Except.ok ())) := by
          obtain ⟨cell, created⟩ := s'
          simp only at hr'
          subst hr'
          simp [fetchStep]
        simp [intoInnerRes, getStep, hf, hr', hinner]
      · simp [intoInnerRes, getStep, hf, hr']

theorem blobStep_fst (uMax : Nat) (p : BlobParams) (env : FetchEnv) (op : BlobOp)
    (s : BlobState) :
    (blobStep uMax p env op s).1 = (fetchStep uMax p env (cancelOf op) s).1 := by
  cases op
  · exact getStep_fst uMax p env _ s
  · rfl

theorem blobStep_inv (uMax : Nat) (p : BlobParams) (env : FetchEnv) (op : BlobOp)
    (s : BlobState) (h : BlobInv env p.data s) :
    BlobInv env p.data (blobStep uMax p env op s).1 := by
  rw [blobStep_fst]
  exact fetchStep_inv uMax p env _ s h

theorem fetchStep_err_size (uMax : Nat) (p : BlobParams) (env : FetchEnv) (c : FetchCancel)
    (s : BlobState) (e : FetchError) (h : (fetchStep uMax p env c s).2 = some (Except.error e)) :
    ∃ u, e = FetchError.size u ∧ (fetchStep uMax p env c s).1 = s := by
  obtain ⟨cell, created⟩ := s
  cases c <;> cases cell <;>
    rcases hl : lenRes uMax p.len with _ | _ <;>
    simp_all [fetchStep] <;>
    exact ⟨_, h.symm⟩

theorem getStep_result (uMax : Nat) (p : BlobParams) (env : FetchEnv) (c : FetchCancel)
    (s : BlobState) (h : BlobInv env p.data s) :
    (getStep uMax p env c s).2 = none
    ∨ (∃ e, (getStep uMax p env c s).2 = some (Except.error (FetchError.size e)))
    ∨ (getStep uMax p env c s).2 = some (fetchOutcome env p.data) := by
  rcases hf : fetchStep uMax p env c s with ⟨s', r⟩
  rcases r with _ | r
  · left
    simp [getStep, hf]
  · rcases r with e | u
    · right; left
      obtain ⟨u, hu, _⟩ := fetchStep_err_size uMax p env c s e (by rw [hf])
      subst hu
      exact ⟨u, by simp [getStep, hf]⟩
    · right; right
      obtain ⟨r', hr'⟩ := fetchStep_ok_done uMax p env c s u (by rw [hf])
      rw [hf] at hr'
      simp only at hr'
      have hinv : BlobInv env p.data s' := by
        have := fetchStep_inv uMax p env c s h
        rwa [hf] at this
      have : r' = fetchOutcome env p.data := hinv.2.2 r' hr'
      subst this
      simp [getStep, hf, hr']

theorem blobStep_result (uMax : Nat) (p : BlobParams) (env : FetchEnv) (op : BlobOp)
    (s : BlobState) (h : BlobInv env p.data s) :
    (blobStep uMax p env op s).2 = none
    ∨ (∃ e, (blobStep uMax p env op s).2 = some (Except.error (FetchError.size e)))
    ∨ (blobStep uMax p env op s).2 = some (fetchOutcome env p.data) := by
  cases op with
  | getCall c => exact getStep_result uMax p env c s h
  | intoInnerCall c sole =>
      have heq : (blobStep uMax p env (BlobOp.intoInnerCall c sole) s).2
          = (getStep uMax p env c s).2 := intoInner_eq_get uMax p env c sole s
      rw [heq]
      exact getStep_result uMax p env c s h

theorem blobRun_inv (uMax : Nat) (p : BlobParams) (env : FetchEnv) (ops : List BlobOp)
    (s : BlobState) (h : BlobInv env p.data s) :
    BlobInv env p.data (blobRun uMax p env ops s).1 := by
  induction ops generalizing s with
  | nil => exact h
  | cons op ops ih =>
      simp only [blobRun]
      exact ih _ (blobStep_inv uMax p env op s h)

theorem blobRun_results (uMax : Nat) (p : BlobParams) (env : FetchEnv) (ops : List BlobOp)
    (s : BlobState) (h : BlobInv env p.data s) :
    ∀ res ∈ (blobRun uMax p env ops s).2,
      res = none
      ∨ (∃ e, res = some (Except.error (FetchError.size e)))
      ∨ res = some (fetchOutcome env p.data) := by
  induction ops generalizing s with
  | nil => intro res hres; simp [blobRun] at hres
  | cons op ops ih =>
      intro res hres
      simp only [blobRun, List.mem_cons] at hres
      rcases hres with hres | hres
      · subst hres
        exact blobStep_result uMax p env op s h
      · exact ih _ (blobStep_inv uMax p env op s h) res hres

theorem lenRes_le (uMax l : Nat) (h : l ≤ uMax) : lenRes uMax l = Except.ok l := by
  simp [lenRes, usizeTryFrom, h]

theorem fetchStep_no_err (uMax : Nat) (p : BlobParams) (env : FetchEnv) (c : FetchCancel)
    (s : BlobState) (hl : p.len ≤ uMax) (e : FetchError) :
    (fetchStep uMax p env c s).2 ≠ some (Except.error e) := by
  obtain ⟨cell, created⟩ := s
  cases c <;> cases cell <;>
    simp_all [fetchStep, lenRes_le uMax p.len hl]

theorem getStep_result_len_ok (uMax : Nat) (p : BlobParams) (env : FetchEnv) (c : FetchCancel)
    (s : BlobState) (h : BlobInv env p.data s) (hl : p.len ≤ uMax) :
    (getStep uMax p env c s).2 = none
    ∨ (getStep uMax p env c s).2 = some (fetchOutcome env p.data) := by
  rcases hf : fetchStep uMax p env c s with ⟨s', r⟩
  rcases r with _ | r
  · left
    simp [getStep, hf]
  · rcases r with e | u
    · exact absurd (show (fetchStep uMax p env c s).2 = some (Except.error e) by rw [hf])
        (fetchStep_no_err uMax p env c s hl e)
    · right
      obtain ⟨r', hr'⟩ := fetchStep_ok_done uMax p env c s u (by rw [hf])
      rw [hf] at hr'
      simp only at hr'
      have hinv : BlobInv env p.data s' := by
        have := fetchStep_inv uMax p env c s h
        rwa [hf] at this
      have : r' = fetchOutcome env p.data := hinv.2.2 r' hr'
      subst this
      simp [getStep, hf, hr']

theorem blobStep_result_len_ok (uMax : Nat) (p : BlobParams) (env : FetchEnv) (op : BlobOp)
    (s : BlobState) (h : BlobInv env p.data s) (hl : p.len ≤ uMax) :
    (blobStep uMax p env op s).2 = none
    ∨ (blobStep uMax p env op s).2 = some (fetchOutcome env p.data) := by
  cases op with
  | getCall c => exact getStep_result_len_ok uMax p env c s h hl
  | intoInnerCall c sole =>
      have heq : (blobStep uMax p env (BlobOp.intoInnerCall c sole) s).2
          = (getStep uMax p env c s).2 := intoInner_eq_get uMax p env c sole s
      rw [heq]
      exact getStep_result_len_ok uMax p env c s h hl

theorem blobRun_results_len_ok (uMax : Nat) (p : BlobParams) (env : FetchEnv)
    (ops : List BlobOp) (s : BlobState) (h : BlobInv env p.data s) (hl : p.len ≤ uMax) :
    ∀ res ∈ (blobRun uMax p env ops s).2,
      res = none ∨ res = some (fetchOutcome env p.data) := by
  induction ops generalizing s with
  | nil => intro res hres; simp [blobRun] at hres
  | cons op ops ih =>
      intro res hres
      simp only [blobRun, List.mem_cons] at hres
      rcases hres with hres | hres
      · subst hres
        exact blobStep_result_len_ok uMax p env op s h hl
      · exact ih _ (blobStep_inv uMax p env op s h) res hres

/- ----------------------------------------------------------------
   Dispatcher loop lemmas
   ---------------------------------------------------------------- -/

theorem rfnLoop_append {A : Type} (t t' : List (KeepSig × RecvRes A))
    (h : (rfnLoop t).2 = false) :
    rfnLoop (t ++ t') = ((rfnLoop t).1 ++ (rfnLoop t').1, (rfnLoop t').2) := by
  induction t with
  | nil => simp [rfnLoop]
  | cons e rest ih =>
      obtain ⟨sig, rv⟩ := e
      cases sig <;> cases rv <;> simp_all [rfnLoop]

theorem rfnLoop_kept_exit {A : Type} (t : List (KeepSig × RecvRes A))
    (hk : ∀ e ∈ t, e.1 = KeepSig.kept) (hx : (rfnLoop t).2 = true) :
    ∃ e ∈ t, e.2 = RecvRes.closed := by
  induction t with
  | nil => simp [rfnLoop] at hx
  | cons e rest ih =>
      obtain ⟨sig, rv⟩ := e
      have hsig : sig = KeepSig.kept := hk (sig, rv) (List.mem_cons_self _ _)
      subst hsig
      cases rv with
      | item a =>
          have hx' : (rfnLoop rest).2 = true := by simpa [rfnLoop] using hx
          obtain ⟨e', he', hc⟩ := ih (fun x hx => hk x (List.mem_cons_of_mem _ hx)) hx'
          exact ⟨e', List.mem_cons_of_mem _ he', hc⟩
      | closed => exact ⟨(KeepSig.kept, RecvRes.closed), List.mem_cons_self _ _, rfl⟩
      | recvErr =>
          have hx' : (rfnLoop rest).2 = true := by simpa [rfnLoop] using hx
          obtain ⟨e', he', hc⟩ := ih (fun x hx => hk x (List.mem_cons_of_mem _ hx)) hx'
          exact ⟨e', List.mem_cons_of_mem _ he', hc⟩

theorem blobLoop_kept_exit {α : Type} (t : List (SelPoll × KeepSig × RecvRes α))
    (hk : ∀ e ∈ t, e.2.1 = KeepSig.kept) (hx : (blobLoop t).2 = true) :
    ∃ e ∈ t, e.2.2 = RecvRes.closed := by
  induction t with
  | nil => simp [blobLoop] at hx
  | cons e rest ih =>
      obtain ⟨ord, sig, rv⟩ := e
      have hsig : sig = KeepSig.kept := hk (ord, sig, rv) (List.mem_cons_self _ _)
      subst hsig
      cases ord <;> cases rv <;>
        first
          | exact ⟨(_, KeepSig.kept, RecvRes.closed), List.mem_cons_self _ _, rfl⟩
          | · have hx' : (blobLoop rest).2 = true := by simpa [blobLoop] using hx
              obtain ⟨e', he', hc⟩ := ih (fun x hxm => hk x (List.mem_cons_of_mem _ hxm)) hx'
              exact ⟨e', List.mem_cons_of_mem _ he', hc⟩

/- ----------------------------------------------------------------
   Claim theorems
   ---------------------------------------------------------------- -/

/-- C1: for every LazyBlob construction, over any serialized trace of
get()/into_inner() critical sections by any number of clones and callers
(including cancelled ones), at most one fetch computation is ever created;
the cache cell only ever moves forward along empty -> in-flight ->
resolved and a resolved cell never changes; and every caller that receives
Ok gets exactly the construction buffer. -/
theorem c1_single_flight_fetch :
    (∀ (uMax : Nat) (data : Buffer) (env : FetchEnv) (ops : List BlobOp),
        (blobRun uMax (providedBlob data) env ops initBlobState).1.created ≤ 1)
  ∧ (∀ (uMax : Nat) (p : BlobParams) (env : FetchEnv) (c : FetchCancel) (s : BlobState),
        cellRank s.cell ≤ cellRank (fetchStep uMax p env c s).1.cell)
  ∧ (∀ (uMax : Nat) (p : BlobParams) (env : FetchEnv) (c : FetchCancel) (s : BlobState)
        (r : Except FetchError Buffer),
        s.cell = FetchCell.doneTask r →
        (fetchStep uMax p env c s).1.cell = FetchCell.doneTask r)
  ∧ (∀ (uMax : Nat) (data : Buffer) (env : FetchEnv) (ops : List BlobOp)
        (res : Option (Except FetchError Buffer)) (buf : Buffer),
        res ∈ (blobRun uMax (providedBlob data) env ops initBlobState).2 →
        res = some (Except.ok buf) → buf = data) := by
  refine ⟨?_, fetchStep_rank_mono, fetchStep_done_stable, ?_⟩
  · intro uMax data env ops
    exact blobInv_created_le env data _
      (blobRun_inv uMax (providedBlob data) env ops initBlobState
        (blobInv_init env data))
  · intro uMax data env ops res buf hres hok
    rcases blobRun_results uMax (providedBlob data) env ops initBlobState
        (blobInv_init env data) res hres with h | ⟨e, h⟩ | h
    · rw [h] at hok
      exact absurd hok (by simp)
    · rw [h] at hok
      simp at hok
    · rw [h] at hok
      simp at hok
      exact fetchOutcome_ok env data buf hok

/-- Witness for C1 at a concrete trace: one uncancelled get() on a
two-byte blob returns the construction buffer. -/
theorem c1_single_flight_fetch_witness :
    (some (Except.ok ([3, 5] : Buffer))
      ∈ (blobRun 1000 (providedBlob [3, 5]) FetchEnv.served
          [BlobOp.getCall FetchCancel.no] initBlobState).2)
    ∧ ([3, 5] : Buffer) = [3, 5] :=
  ⟨by decide,
    c1_single_flight_fetch.2.2.2 1000 [3, 5] FetchEnv.served
      [BlobOp.getCall FetchCancel.no] (some (Except.ok [3, 5])) [3, 5]
      (by decide) rfl⟩

/-- C2 counterexample: the blob provider's transfer dispatcher races the
receive loop against the shutdown signal WITHOUT fixed priority
(tokio select without `biased`, lazy_blob/mod.rs lines 154-157).  On a
wakeup where shutdown is signalled (provider dropped without keep) and a
request is simultaneously ready, the poll order that polls the receive
loop first accepts the request - so the claim that in every dispatcher
loop shutdown is checked before new requests, and no request is accepted
once shutdown is signalled, is false for this dispatcher. -/
theorem c2_counterexample_blob_unbiased :
    blobLoop [(SelPoll.sendFirst, KeepSig.dropped, RecvRes.item (0 : Nat))] = ([0], true)
    ∧ ([0] : List Nat) ≠ [] :=
  ⟨rfl, by decide⟩

/-- C2 (amended): the remote function dispatcher's select is `biased` with
the termination branch first, so once shutdown is signalled no request is
accepted even if one is simultaneously ready; the blob transfer dispatcher
races the two branches without fixed priority, so on a wakeup with both
ready it exits, but may first accept the simultaneously ready request if
the receive loop happens to be polled first. -/
theorem c2_amended_shutdown_priority :
    (∀ (A : Type) (rv : RecvRes A) (rest : List (KeepSig × RecvRes A)),
        rfnLoop ((KeepSig.dropped, rv) :: rest) = ([], true))
  ∧ (∀ (α : Type) (ord : SelPoll) (rv : RecvRes α)
        (rest : List (SelPoll × KeepSig × RecvRes α)),
        blobLoop ((ord, KeepSig.dropped, rv) :: rest)
          = ((match ord with
              | SelPoll.keepFirst => []
              | SelPoll.sendFirst => itemsOf rv), true)) := by
  constructor
  · intro A rv rest
    cases rv <;> rfl
  · intro α ord rv rest
    cases ord <;> cases rv <;> rfl

/-- C3: try_call discards the send result, so a failed send is not a
distinct error; it returns Err(CallError) exactly when the reply channel
closes without a value, that single error covers dispatcher shutdown,
provider drop and execution-task abandonment uniformly, and an arriving
value is returned as Ok. -/
theorem c3_try_call_error_collapse :
    (∀ (R : Type) (sr sr' : Option Unit) (reply : Option R),
        tryCallM sr reply = tryCallM sr' reply)
  ∧ (∀ (R : Type) (sr : Option Unit) (v : R), tryCallM sr (some v) = Except.ok v)
  ∧ (∀ (R : Type) (sr : Option Unit),
        tryCallM sr (none : Option R) = Except.error CallError.dropped)
  ∧ (∀ (R : Type) (sr : Option Unit),
        tryCallM sr (replyOf (CallFate.dispatcherShutdown : CallFate R))
          = Except.error CallError.dropped
        ∧ tryCallM sr (replyOf (CallFate.providerDropped : CallFate R))
          = Except.error CallError.dropped
        ∧ tryCallM sr (replyOf (CallFate.taskAbandoned : CallFate R))
          = Except.error CallError.dropped)
  ∧ (∀ (R : Type) (sr : Option Unit) (reply : Option R) (e : CallError),
        tryCallM sr reply = Except.error e → reply = none) := by
  refine ⟨fun R sr sr' reply => by cases reply <;> rfl,
    fun R sr v => rfl, fun R sr => rfl,
    fun R sr => ⟨rfl, rfl, rfl⟩,
    fun R sr reply e h => ?_⟩
  cases reply with
  | none => rfl
  | some v => simp [tryCallM] at h

/-- Witness for C3 at a concrete reply: a closed reply channel yields the
error, and the hypothesis of the exactness conjunct is discharged. -/
theorem c3_try_call_error_collapse_witness :
    tryCallM none (none : Option Nat) = Except.error CallError.dropped
    ∧ (none : Option Nat) = none :=
  ⟨rfl, c3_try_call_error_collapse.2.2.2.2 Nat none none CallError.dropped rfl⟩

/-- C4: if the provider is dropped without keep(), the dispatcher exits on
its next wakeup without accepting even a simultaneously ready request, and
any call whose request is not accepted observes the delivery error; if
keep() was called the termination branch never fires, a ready request is
accepted, and its completed execution task delivers Ok(f a). -/
theorem c4_provider_drop_vs_keep :
    (∀ (A : Type) (rv : RecvRes A) (rest : List (KeepSig × RecvRes A)),
        (rfnLoop ((KeepSig.dropped, rv) :: rest)).2 = true)
  ∧ (∀ (A R : Type) (f : A → R) (a : A) (sr : Option Unit) (tc : Bool),
        tryCallM sr (callOutcome false tc f a) = Except.error CallError.dropped)
  ∧ (∀ (A : Type) (a : A) (rest : List (KeepSig × RecvRes A)),
        (rfnLoop ((KeepSig.kept, RecvRes.item a) :: rest)).1 = a :: (rfnLoop rest).1)
  ∧ (∀ (A R : Type) (f : A → R) (a : A) (sr : Option Unit),
        tryCallM sr (callOutcome true true f a) = Except.ok (f a)) := by
  refine ⟨fun A rv rest => by cases rv <;> rfl,
    fun A R f a sr tc => rfl,
    fun A a rest => rfl,
    fun A R f a sr => rfl⟩

/-- C5: len() is usize::try_from on the immutable length - it returns the
length when representable and UsizeExceeded(L) otherwise, touching neither
the network nor the cache; the check is a pure function of the length so
it is re-applied identically on every call and every clone; and fetch() on
an empty cell with an unrepresentable length returns the size error with
the cell untouched and no computation created, hence before any transfer
request could be sent. -/
theorem c5_len_size_check :
    (∀ (uMax l : Nat),
        lenRes uMax l
          = if l ≤ uMax then Except.ok l else Except.error { val := l })
  ∧ (∀ (uMax : Nat) (b : LazyBlobM),
        lenRes uMax (cloneLazyBlob b).len = lenRes uMax b.len)
  ∧ (∀ (uMax : Nat) (p : BlobParams) (env : FetchEnv) (k : Nat),
        uMax < p.len →
        fetchStep uMax p env FetchCancel.no { cell := FetchCell.noTask, created := k }
          = ({ cell := FetchCell.noTask, created := k },
             some (Except.error (FetchError.size { val := p.len })))) := by
  refine ⟨fun uMax l => ?_, fun uMax b => rfl, fun uMax p env k h => ?_⟩
  · by_cases h : l ≤ uMax <;> simp [lenRes, usizeTryFrom, h]
  · simp [fetchStep, lenRes, usizeTryFrom, Nat.not_le.mpr h]

/-- Witness for C5 at a concrete unrepresentable length: a blob declaring
length 10 on a platform with usize::MAX = 3. -/
theorem c5_len_size_check_witness :
    3 < 10
    ∧ fetchStep 3 { data := [], len := 10 } FetchEnv.served FetchCancel.no
        { cell := FetchCell.noTask, created := 0 }
        = ({ cell := FetchCell.noTask, created := 0 },
           some (Except.error (FetchError.size { val := 10 }))) :=
  ⟨by decide,
    c5_len_size_check.2.2 3 { data := [], len := 10 } FetchEnv.served 0 (by decide)⟩

/-- C6: when the provider is dropped before any fetch completes (the
forwarded sender placeholder is dropped unconnected), every caller that is
not itself cancelled resolves to the Dropped terminal error, the error is
stored in the resolved cache cell, and at most one computation is ever
created - repeated calls never retry. -/
theorem c6_provider_dropped_cached_error :
    ∀ (uMax : Nat) (data : Buffer) (ops : List BlobOp),
      data.length ≤ uMax →
      (∀ res ∈ (blobRun uMax (providedBlob data) FetchEnv.senderDropped ops
          initBlobState).2,
          res = none ∨ res = some (Except.error FetchError.dropped))
      ∧ (∀ r, (blobRun uMax (providedBlob data) FetchEnv.senderDropped ops
            initBlobState).1.cell = FetchCell.doneTask r →
            r = Except.error FetchError.dropped)
      ∧ (blobRun uMax (providedBlob data) FetchEnv.senderDropped ops
          initBlobState).1.created ≤ 1 := by
  intro uMax data ops hl
  have hinv := blobRun_inv uMax (providedBlob data) FetchEnv.senderDropped ops
    initBlobState (blobInv_init _ _)
  refine ⟨fun res hres => ?_, fun r hr => ?_, ?_⟩
  · rcases blobRun_results_len_ok uMax (providedBlob data) FetchEnv.senderDropped ops
        initBlobState (blobInv_init _ _) hl res hres with h | h
    · exact Or.inl h
    · exact Or.inr h
  · exact hinv.2.2 r hr
  · exact blobInv_created_le _ _ _ hinv

/-- Witness for C6 at a concrete trace: two uncancelled get() calls on a
dropped provider both observe the cached Dropped error. -/
theorem c6_provider_dropped_cached_error_witness :
    ([9] : List Nat).length ≤ 5
    ∧ (∀ res ∈ (blobRun 5 (providedBlob [9]) FetchEnv.senderDropped
        [BlobOp.getCall FetchCancel.no, BlobOp.getCall FetchCancel.no]
        initBlobState).2,
        res = none ∨ res = some (Except.error FetchError.dropped)) :=
  ⟨by decide,
    (c6_provider_dropped_cached_error 5 [9]
      [BlobOp.getCall FetchCancel.no, BlobOp.getCall FetchCancel.no] (by decide)).1⟩

/-- C7: done() awaits keep_tx.closed(), which resolves exactly when the
keep_rx receiver - owned by the dispatcher task while it runs - has been
dropped, i.e. exactly when the dispatcher task has exited (for either
reason: shutdown or all handles dropped, both covered by the trace
quantifier); while the loop has not exited, done() has not resolved and an
accepted call still produces its value. -/
theorem c7_done_iff_dispatcher_exited :
    (∀ (A : Type) (t : List (KeepSig × RecvRes A)),
        doneResolvedRfn t = true ↔ (rfnLoop t).2 = true)
  ∧ (∀ (α : Type) (t : List (SelPoll × KeepSig × RecvRes α)),
        doneResolvedBlob t = true ↔ (blobLoop t).2 = true)
  ∧ (∀ (A R : Type) (t : List (KeepSig × RecvRes A)) (f : A → R) (a : A)
        (sr : Option Unit),
        (rfnLoop t).2 = false →
        doneResolvedRfn t = false
        ∧ tryCallM sr (callOutcome (!(rfnLoop t).2) true f a) = Except.ok (f a)) := by
  refine ⟨fun A t => ?_, fun α t => ?_, fun A R t f a sr h => ?_⟩
  · unfold doneResolvedRfn
    cases hx : (rfnLoop t).2 <;> simp [rxAfter, closedResolves]
  · unfold doneResolvedBlob
    cases hx : (blobLoop t).2 <;> simp [rxAfter, closedResolves]
  · rw [h]
    unfold doneResolvedRfn
    rw [h]
    exact ⟨rfl, rfl⟩

/-- Witness for C7 at a concrete trace: before any wakeup the dispatcher
has not exited, done() has not resolved, and a call succeeds. -/
theorem c7_done_iff_dispatcher_exited_witness :
    (rfnLoop ([] : List (KeepSig × RecvRes Nat))).2 = false
    ∧ doneResolvedRfn ([] : List (KeepSig × RecvRes Nat)) = false :=
  ⟨rfl,
    (c7_done_iff_dispatcher_exited.2.2 Nat Nat [] (fun n => n + 1) 0 none rfl).1⟩

/-- C9: RFn::new and LazyBlob::new are provided() followed immediately by
keep() on the returned provider, so a handle made by new runs under the
kept signal; under that signal the termination branch of either dispatcher
never fires, so the dispatcher exits only when the request channel closes,
i.e. when every handle clone has been dropped. -/
theorem c9_new_is_provided_keep :
    newKeepSig = keepSigAfter providedKeepSig
  ∧ newKeepSig = KeepSig.kept
  ∧ (∀ (A : Type) (t : List (KeepSig × RecvRes A)),
        (∀ e ∈ t, e.1 = newKeepSig) → (rfnLoop t).2 = true →
        ∃ e ∈ t, e.2 = RecvRes.closed)
  ∧ (∀ (α : Type) (t : List (SelPoll × KeepSig × RecvRes α)),
        (∀ e ∈ t, e.2.1 = newKeepSig) → (blobLoop t).2 = true →
        ∃ e ∈ t, e.2.2 = RecvRes.closed) := by
  refine ⟨rfl, rfl, fun A t hk hx => ?_, fun α t hk hx => ?_⟩
  · exact rfnLoop_kept_exit t hk hx
  · exact blobLoop_kept_exit t hk hx

/-- Witness for C9 at a concrete trace: a kept dispatcher that exits did
so because the request channel closed. -/
theorem c9_new_is_provided_keep_witness :
    (rfnLoop [((KeepSig.kept : KeepSig), (RecvRes.closed : RecvRes Nat))]).2 = true
    ∧ ∃ e ∈ [((KeepSig.kept : KeepSig), (RecvRes.closed : RecvRes Nat))],
        e.2 = RecvRes.closed :=
  ⟨rfl, c9_new_is_provided_keep.2.2.1 Nat
    [((KeepSig.kept : KeepSig), (RecvRes.closed : RecvRes Nat))] (by decide) rfl⟩

/-- C8: into_inner() returns exactly what get() would return on the same
shared state - the sole-reference path takes the resolved value directly
and the shared path falls back to get() - and on any state reachable from
a construction (the invariant) an Ok result is the construction buffer. -/
theorem c8_into_inner_equals_get :
    ∀ (uMax : Nat) (p : BlobParams) (env : FetchEnv) (c : FetchCancel) (sole : Bool)
      (s : BlobState),
      intoInnerRes uMax p env c sole s = (getStep uMax p env c s).2
      ∧ (BlobInv env p.data s →
          ∀ buf, intoInnerRes uMax p env c sole s = some (Except.ok buf) →
          buf = p.data) := by
  intro uMax p env c sole s
  refine ⟨intoInner_eq_get uMax p env c sole s, fun hinv buf hok => ?_⟩
  rw [intoInner_eq_get uMax p env c sole s] at hok
  rcases getStep_result uMax p env c s hinv with h | ⟨e, h⟩ | h
  · rw [h] at hok
    exact absurd hok (by simp)
  · rw [h] at hok
    simp at hok
  · rw [h] at hok
    simp at hok
    exact fetchOutcome_ok env p.data buf hok

/-- Witness for C8 at a concrete state: into_inner on the sole handle of a
freshly constructed one-byte blob returns the construction buffer. -/
theorem c8_into_inner_equals_get_witness :
    intoInnerRes 10 (providedBlob [2]) FetchEnv.served FetchCancel.no true initBlobState
      = some (Except.ok [2])
    ∧ ([2] : Buffer) = [2] :=
  ⟨by decide,
    (c8_into_inner_equals_get 10 (providedBlob [2]) FetchEnv.served FetchCancel.no true
      initBlobState).2 (blobInv_init _ _) [2] (by decide)⟩

/-- C10: serde serializes only req_tx and len (the wire record has no cell
field) and deserialization fills the skipped fetch_task with its default,
a fresh empty cell - equal to the initial cell of a construction -
whatever the cache of the serialized handle held; so a transmitted handle
shares neither cached data nor an in-flight fetch with its origin. -/
theorem c10_serde_fresh_cache_cell :
    ∀ b : LazyBlobM,
      deserializeLazyBlob (serializeLazyBlob b)
        = { req_tx := b.req_tx, len := b.len, fetch_task := FetchCell.noTask }
      ∧ (deserializeLazyBlob (serializeLazyBlob b)).fetch_task = initBlobState.cell := by
  intro b
  exact ⟨rfl, rfl⟩
